import Mathlib

/-!
Verification of the keystroke sequence synthesizer
(`biometric_typing_emulator/generator/generate_sequence.py`).

Shallow embedding conventions:
* Python floats are modelled as rationals (`ℚ`); float literals such as
  `0.1`, `0.001`, `0.8` become the exact rationals `1/10`, `1/1000`, `4/5`.
* All randomness (`np.random.normal`, `random.uniform`, `random.random`,
  `random.choice`, `random.choices`, `random.randint`, `random.shuffle`)
  is threaded through an explicit `Oracle` of deterministic functions of a
  tick counter; every primitive call consumes one tick.  An index-returning
  draw (`choice`/`choices`/`randint`/`shuffle`) is modelled as an arbitrary
  oracle natural reduced modulo the number of outcomes, which covers every
  index the Python primitive can return.
* Python `dict`s (profile statistic maps) are association lists preserving
  insertion order; `list.insert`, `del list[i]`, `list[i] = x` become
  `pyInsert`, `List.eraseIdx`, `List.set`.  The Python code only ever
  mutates the `"flight"` field of event dicts shared between the original
  and the copied list, and only ever reads the `"key"` field from the
  original list afterwards, so immutable lists model the aliasing exactly.
-/

namespace Keystroke

/-- One timed keystroke event, mirroring the dicts
`{"key": ..., "dwell": ..., "flight": ..., "is_correction": ...}` built by
the generator.  A dict built without the `"is_correction"` entry is
modelled with `is_correction = 0` (nothing in the generator reads it). -/
structure Event where
  key : String
  dwell : ℚ
  flight : ℚ
  is_correction : ℕ
deriving DecidableEq, Repr

/-- Deterministic oracle supplying every random draw the generator makes,
as a function of a tick counter that increases by one per primitive call.
`normal t m s` models `np.random.normal(m, s)`, `uniform` models
`random.uniform`, `rand` models `random.random()`, and `nat` supplies the
index for `random.choice` / `random.choices` / `random.randint` /
`random.shuffle` draws. -/
structure Oracle where
  normal : ℕ → ℚ → ℚ → ℚ
  uniform : ℕ → ℚ → ℚ → ℚ
  rand : ℕ → ℚ
  nat : ℕ → ℕ

/-- A user profile snapshot, mirroring the JSON record consumed by
`TypingSequenceGenerator`.  Required statistic maps are association lists
(a missing map and an empty map are both `[]`, matching Python's
truthiness test `not profile.get(...)`); optional scalar fields are
`Option`s (`none` = key absent from the JSON object). -/
structure Profile where
  mean_dwell_times : List (String × ℚ)
  std_dwell_times : List (String × ℚ)
  mean_flight_times : List (String × ℚ)
  std_flight_times : List (String × ℚ)
  typo_rate : Option ℚ
  double_letter_error_rate : Option ℚ
  inserted_letter_rate : Option ℚ
  missed_letter_rate : Option ℚ
  reversed_letters_rate : Option ℚ
  typo_clusters : Option (ℚ × ℚ × ℚ × ℚ)
  correction_style : Option (ℚ × ℚ)
  common_typo_patterns : List (String × ℚ)

/-- Python `d[k]` / `k in d` on a string-keyed dict. -/
def lookupQ (m : List (String × ℚ)) (k : String) : Option ℚ :=
  (m.find? (fun kv => kv.1 = k)).map (fun kv => kv.2)

/-- Python `list.insert(i, x)` (for `i ≤ len` inserts before index `i`,
for larger `i` appends). -/
def pyInsert (l : List α) (i : ℕ) (x : α) : List α :=
  l.take i ++ x :: l.drop i

/-- Python `int(q)`: truncation toward zero. -/
def pyInt (q : ℚ) : ℤ :=
  if 0 ≤ q then ⌊q⌋ else -⌊-q⌋

/-- Python `random.randint(a, b)` (inclusive bounds), from the oracle. -/
def pyRandint (o : Oracle) (t a b : ℕ) : ℕ × ℕ :=
  (a + o.nat t % (b - a + 1), t + 1)

/-- Placeholder event used for the (unreachable in executed paths)
out-of-range default of positional reads. -/
def dfltEvent : Event := ⟨"", 0, 0, 0⟩

/-- Python `sequence[i]["key"]`. -/
def keyAt (l : List Event) (i : ℕ) : String :=
  (l.getD i dfltEvent).key

/-- Python `sequence[i]["flight"] = f`: rebind the flight of the event at
index `i` (no-op out of range; all executed call sites are in range). -/
def updateFlight (l : List Event) (i : ℕ) (f : ℚ) : List Event :=
  match l[i]? with
  | none => l
  | some e => l.set i { e with flight := f }

/-- First index (if any) at which `need` occurs as a contiguous substring
of `hay`; models Python's `need in hay` / `hay.index(need)` on strings. -/
def subIdx (need : List Char) : List Char → Option ℕ
  | [] => if need.isEmpty then some 0 else none
  | c :: tl =>
    if need.isPrefixOf (c :: tl) then some 0
    else (subIdx need tl).map (fun i => i + 1)

/-- Python `need in hay` for strings (substring containment). -/
def containsStr (hay need : String) : Bool :=
  (subIdx need.data hay.data).isSome

/-- Python `hay.index(need)` (only evaluated after a containment check). -/
def idxInStr (hay need : String) : ℕ :=
  (subIdx need.data hay.data).getD 0

/-- `random.choice` over a list of characters (the result is the chosen
character as a one-character string, as Python indexing a string yields). -/
def pyChoiceChar (o : Oracle) (t : ℕ) (l : List Char) : String :=
  match l with
  | [] => ""
  | c :: cs => String.singleton ((c :: cs).getD (o.nat t % (c :: cs).length) c)

/-- `random.choice` over a list of strings. -/
def pyChoiceStr (o : Oracle) (t : ℕ) (l : List String) : String :=
  l.getD (o.nat t % l.length) ""

/-- `random.choices(population, weights, k=1)[0]`: the weighted draw is
modelled as an oracle-chosen index into the population (the weights, all
strictly positive at every executed call site, do not restrict which
indices are possible). -/
def pyChoicesStr (o : Oracle) (t : ℕ) (l : List String) (_w : List ℚ) : String :=
  l.getD (o.nat t % l.length) ""

/-- One step of `random.shuffle` modelled as a Fisher-Yates extraction:
the oracle picks which remaining element comes next.  The fuel argument
starts at the list length, so the recursion is structural. -/
def shuffleGo (o : Oracle) : ℕ → ℕ → List ℕ → List ℕ × ℕ
  | 0, t, _ => ([], t)
  | _ + 1, t, [] => ([], t)
  | fuel + 1, t, x :: xs =>
    let i := o.nat t % (x :: xs).length
    let r := shuffleGo o fuel (t + 1) ((x :: xs).eraseIdx i)
    ((x :: xs).getD i x :: r.1, r.2)

/-- Python `random.shuffle(l)` (in place in the source; returns the
permuted list here). -/
def pyShuffle (o : Oracle) (t : ℕ) (l : List ℕ) : List ℕ × ℕ :=
  shuffleGo o l.length t l

/-- Insertion step of `list.sort()` for naturals. -/
def insertSorted (x : ℕ) : List ℕ → List ℕ
  | [] => [x]
  | y :: ys => if x ≤ y then x :: y :: ys else y :: insertSorted x ys

/-- Python `list.sort()` (ascending) for naturals. -/
def sortNat : List ℕ → List ℕ
  | [] => []
  | x :: xs => insertSorted x (sortNat xs)

/-- `TypingSequenceGenerator.get_dwell_time`. -/
def get_dwell_time (p : Profile) (o : Oracle) (t : ℕ) (key : String) : ℚ × ℕ :=
  match lookupQ p.mean_dwell_times key with
  | some mean_dwell =>
    let std_dwell := (lookupQ p.std_dwell_times key).getD (mean_dwell * (1/10))
    (max 10 (o.normal t mean_dwell std_dwell), t + 1)
  | none =>
    let all_dwells := p.mean_dwell_times.map (fun kv => kv.2)
    if all_dwells ≠ [] then
      let avg_dwell := all_dwells.sum / (all_dwells.length : ℚ)
      (max 10 (o.normal t avg_dwell (avg_dwell * (1/10))), t + 1)
    else
      (o.uniform t 50 100, t + 1)

/-- `TypingSequenceGenerator.get_flight_time`. -/
def get_flight_time (p : Profile) (o : Oracle) (t : ℕ) (prev_key curr_key : String) : ℚ × ℕ :=
  let key_pair := prev_key ++ "→" ++ curr_key
  match lookupQ p.mean_flight_times key_pair with
  | some mean_flight =>
    let std_flight := (lookupQ p.std_flight_times key_pair).getD (mean_flight * (3/20))
    (max 5 (o.normal t mean_flight std_flight), t + 1)
  | none =>
    let all_flights := p.mean_flight_times.map (fun kv => kv.2)
    if all_flights ≠ [] then
      let avg_flight := all_flights.sum / (all_flights.length : ℚ)
      (max 5 (o.normal t avg_flight (avg_flight * (3/20))), t + 1)
    else
      (o.uniform t 80 150, t + 1)

/-- `TypingSequenceGenerator.get_typo_probability`. -/
def get_typo_probability (p : Profile) : ℚ :=
  p.typo_rate.getD (3/100)

/-- The four typo-shape probabilities returned by
`get_typo_type_distribution`. -/
structure TypoDist where
  double_letter : ℚ
  inserted : ℚ
  missed : ℚ
  reversed : ℚ
deriving DecidableEq, Repr

/-- `TypingSequenceGenerator.get_typo_type_distribution`. -/
def get_typo_type_distribution (p : Profile) : TypoDist :=
  match p.double_letter_error_rate, p.inserted_letter_rate,
        p.missed_letter_rate, p.reversed_letters_rate with
  | some d, some i, some m, some r =>
    let double_letter := max (1/1000) d
    let inserted := max (1/1000) i
    let missed := max (1/1000) m
    let reversed_letters := max (1/1000) r
    let total := double_letter + inserted + missed + reversed_letters
    ⟨double_letter / total, inserted / total, missed / total, reversed_letters / total⟩
  | _, _, _, _ => ⟨4/10, 3/10, 2/10, 1/10⟩

/-- The four cluster names, in the order the source lists them. -/
def cluster_names : List String := ["home_row", "adjacent_keys", "same_hand", "other"]

/-- The normalized cluster weight vector computed inside
`choose_typo_cluster` when the profile carries `typo_clusters`
(`none` when the profile does not). -/
def clusterProbs (p : Profile) : Option (List ℚ) :=
  match p.typo_clusters with
  | some (hr, ak, sh, ot) =>
    let home_row := max (1/1000) hr
    let adjacent_keys := max (1/1000) ak
    let same_hand := max (1/1000) sh
    let other := max (1/1000) ot
    let total := home_row + adjacent_keys + same_hand + other
    some [home_row / total, adjacent_keys / total, same_hand / total, other / total]
  | none => none

/-- `TypingSequenceGenerator.choose_typo_cluster`. -/
def choose_typo_cluster (p : Profile) (o : Oracle) (t : ℕ) : String × ℕ :=
  match clusterProbs p with
  | some probs => (pyChoicesStr o t cluster_names probs, t + 1)
  | none => (pyChoiceStr o t cluster_names, t + 1)

/-- The home-row string from `get_typical_error_for_key`. -/
def home_row : String := "asdfghjkl;"

/-- The QWERTY layout rows from `get_typical_error_for_key`. -/
def qwerty_rows : List String :=
  ["1234567890-=", "qwertyuiop[]\\", "asdfghjkl;'", "zxcvbnm,./"]

/-- Left-hand keys from `get_typical_error_for_key`. -/
def left_hand : String := "qwertasdfgzxcv"

/-- Right-hand keys from `get_typical_error_for_key`. -/
def right_hand : String := "yuiophjklnm"

/-- The full-alphabet fallback string used by `get_typical_error_for_key`. -/
def alphabet : String := "qwertyuiopasdfghjklzxcvbnm"

/-- The `for row_idx, row in enumerate(qwerty_rows): if key in row`
search: the row index and column of the first layout row containing
`key` as a substring (`none` models the `-1, -1` sentinel pair). -/
def keyPosGo (key : String) : List String → ℕ → Option (ℕ × ℕ)
  | [], _ => none
  | row :: rows, idx =>
    if containsStr row key then some (idx, idxInStr row key)
    else keyPosGo key rows (idx + 1)

/-- Position of `key` in the QWERTY layout. -/
def keyPos (key : String) : Option (ℕ × ℕ) :=
  keyPosGo key qwerty_rows 0

/-- Last character of a pattern as a one-character string
(Python `pattern[-1]`). -/
def lastStr (s : String) : String :=
  match s.data.getLast? with
  | some c => String.singleton c
  | none => ""

/-- Second-to-last character of a pattern as a one-character string
(Python `pattern[-2]`, only evaluated when `len(pattern) ≥ 2`). -/
def penultStr (s : String) : String :=
  match s.data[s.data.length - 2]? with
  | some c => String.singleton c
  | none => ""

/-- The `for pattern, freq in common_typos.items()` loop of
`get_typical_error_for_key`: for each pattern of length ≥ 2 ending in the
target key, one `random.random()` draw decides (probability 0.6) whether
to return the character preceding the key in that pattern. -/
def patternsLoop (o : Oracle) (key : String) :
    List (String × ℚ) → ℕ → Option String × ℕ
  | [], t => (none, t)
  | (pat, _) :: rest, t =>
    if 2 ≤ pat.data.length ∧ lastStr pat = key then
      if o.rand t < 3/5 then (some (penultStr pat), t + 1)
      else patternsLoop o key rest (t + 1)
    else patternsLoop o key rest t

/-- The keyboard-adjacency list built inside `get_typical_error_for_key`
for a key found at row `kr`, column `kc`: same-row horizontal neighbours,
then the row above and the row below within one column of offset. -/
def adjacentChars (kr kc : ℕ) : List Char :=
  let row := (qwerty_rows.getD kr "").data
  let a1 := if 0 < kc then [row.getD (kc - 1) ' '] else []
  let a2 := if kc < row.length - 1 then [row.getD (kc + 1) ' '] else []
  let above :=
    if 0 < kr then
      let r := (qwerty_rows.getD (kr - 1) "").data
      let lo := kc - 1
      let hi := min r.length (kc + 2)
      (List.range' lo (hi - lo)).map (fun j => r.getD j ' ')
    else []
  let below :=
    if kr < qwerty_rows.length - 1 then
      let r := (qwerty_rows.getD (kr + 1) "").data
      let lo := kc - 1
      let hi := min r.length (kc + 2)
      (List.range' lo (hi - lo)).map (fun j => r.getD j ' ')
    else []
  a1 ++ a2 ++ above ++ below

/-- `TypingSequenceGenerator.get_typical_error_for_key`. -/
def get_typical_error_for_key (p : Profile) (o : Oracle) (t : ℕ)
    (key error_type : String) : String × ℕ :=
  let pos := keyPos key
  let r := patternsLoop o key p.common_typo_patterns t
  match r with
  | (some res, t1) => (res, t1)
  | (none, t1) =>
    if error_type = "double_letter" then (key, t1)
    else if error_type = "adjacent_keys" ∨ error_type = "inserted" then
      match pos with
      | some (kr, kc) =>
        let adj := adjacentChars kr kc
        if adj ≠ [] then (pyChoiceChar o t1 adj, t1 + 1)
        else (pyChoiceChar o t1 alphabet.data, t1 + 1)
      | none => (pyChoiceChar o t1 alphabet.data, t1 + 1)
    else if error_type = "same_hand" then
      if containsStr left_hand key then (pyChoiceChar o t1 left_hand.data, t1 + 1)
      else if containsStr right_hand key then (pyChoiceChar o t1 right_hand.data, t1 + 1)
      else (pyChoiceChar o t1 alphabet.data, t1 + 1)
    else if error_type = "reversed" then (key, t1)
    else (pyChoiceChar o t1 alphabet.data, t1 + 1)

/-- `TypingSequenceGenerator.should_make_immediate_correction`. -/
def should_make_immediate_correction (p : Profile) (o : Oracle) (t : ℕ) : Bool × ℕ :=
  match p.correction_style with
  | some (immediate, delayed) =>
    if 0 < immediate + delayed then
      (decide (o.rand t < immediate / (immediate + delayed)), t + 1)
    else (decide (o.rand t < 4/5), t + 1)
  | none => (decide (o.rand t < 4/5), t + 1)

/-- The `"space" in mean_dwell_times or any("→space" in k or "space→" in k
for k in mean_flight_times)` test of `generate_sequence`. -/
def spaceInProfile (p : Profile) : Bool :=
  (lookupQ p.mean_dwell_times "space").isSome
    || p.mean_flight_times.any (fun kv =>
        containsStr kv.1 "→space" || containsStr kv.1 "space→")

/-- The whitespace-to-named-key mapping of `generate_sequence` (`'\r'` is
handled separately: it is skipped before this mapping is reached). -/
def keyFor (p : Profile) (c : Char) : String :=
  if c = '\t' then "tab"
  else if c = '\n' then "enter"
  else if c = ' ' then (if spaceInProfile p then "space" else " ")
  else String.singleton c

/-- The character loop of `generate_sequence`: builds the base event
sequence (one event per non-`'\r'` character), chaining flight times to
the previous mapped key and giving the first event flight `0`. -/
def genBase (p : Profile) (o : Oracle) :
    List Char → Option String → ℕ → List Event × ℕ
  | [], _, t => ([], t)
  | c :: cs, prev, t =>
    if c = '\r' then genBase p o cs prev t
    else
      let key_str := keyFor p c
      let rd := get_dwell_time p o t key_str
      let rf : ℚ × ℕ :=
        match prev with
        | none => (0, rd.2)
        | some pk => get_flight_time p o rd.2 pk key_str
      if key_str = "" then genBase p o cs prev rf.2
      else
        let rest := genBase p o cs (some key_str) rf.2
        (⟨key_str, rd.1, rf.1, 0⟩ :: rest.1, rest.2)

/-- The `for i in range(num_backspaces)` insertion loop shared by all
delayed-correction paths: inserts `count` corrective backspaces starting
at list position `pos`, flight chained from `keyBefore` for the first and
from `"backspace"` afterwards (per iteration the source computes the
flight, then the dwell).  `i` is the loop counter. -/
def insertBackspaces (p : Profile) (o : Oracle) (keyBefore : String) (pos : ℕ) :
    ℕ → ℕ → ℕ → List Event → List Event × ℕ
  | 0, _, t, ns => (ns, t)
  | count + 1, i, t, ns =>
    let fromKey := if 0 < i then "backspace" else keyBefore
    let rf := get_flight_time p o t fromKey "backspace"
    let rd := get_dwell_time p o rf.2 "backspace"
    insertBackspaces p o keyBefore pos count (i + 1) rd.2
      (pyInsert ns (pos + i) ⟨"backspace", rd.1, rf.1, 1⟩)

/-- The re-typing loop shared by all delayed-correction paths: inserts
one event per key of `keys` at consecutive positions starting at `pos`,
flight chained from `lastKey` (per key the source computes the flight,
then the dwell). -/
def retypeKeys (p : Profile) (o : Oracle) :
    List String → ℕ → String → ℕ → List Event → List Event × ℕ
  | [], _, _, t, ns => (ns, t)
  | k :: ks, pos, lastKey, t, ns =>
    let rf := get_flight_time p o t lastKey k
    let rd := get_dwell_time p o rf.2 k
    retypeKeys p o ks (pos + 1) k rd.2 (pyInsert ns pos ⟨k, rd.1, rf.1, 0⟩)

/-- The indices of the original sequence typed during a delayed-correction
window: the `for i in range(delay): ... if original_delayed_index <
len(sequence): ... else: break` loop. -/
def delayedIdxs (seqLen start delay : ℕ) : List ℕ :=
  (List.range' start delay).takeWhile (fun i => i < seqLen)

/-- The `error_type == "double_letter"` branch of
`add_realistic_corrections`. -/
def doubleBranch (p : Profile) (o : Oracle) (sequence ns : List Event)
    (t ep : ℕ) (correct_key : String) : List Event × ℕ :=
  let r1 := get_dwell_time p o t correct_key
  let r2 := get_flight_time p o r1.2 correct_key correct_key
  let r3 := get_dwell_time p o r2.2 "backspace"
  let r4 := get_flight_time p o r3.2 correct_key "backspace"
  let double_data : Event := ⟨correct_key, r1.1, r2.1, 0⟩
  let bs_data : Event := ⟨"backspace", r3.1, r4.1, 1⟩
  let ri := should_make_immediate_correction p o r4.2
  if ri.1 then
    let ns1 := pyInsert ns (ep + 1) double_data
    let ns2 := pyInsert ns1 (ep + 2) bs_data
    if ep + 3 < ns2.length then
      let next_key := keyAt ns2 (ep + 3)
      let rf := get_flight_time p o ri.2 "backspace" next_key
      (updateFlight ns2 (ep + 3) rf.1, rf.2)
    else (ns2, ri.2)
  else
    let rdel := pyRandint o ri.2 1 3
    let insert_pos_error := ep + 1
    let ns1 := pyInsert ns insert_pos_error double_data
    let idxs := delayedIdxs sequence.length (ep + 1) rdel.1
    let effective_delay := idxs.length
    let correction_start := insert_pos_error + effective_delay
    let num_backspaces := effective_delay + 1
    let key_before := keyAt ns1 (correction_start - 1)
    let rb := insertBackspaces p o key_before correction_start num_backspaces 0 rdel.2 ns1
    let retype_start := correction_start + num_backspaces
    let keys := idxs.map (fun i => keyAt sequence i)
    let rr := retypeKeys p o keys retype_start "backspace" rb.2 rb.1
    let final_idx := retype_start + keys.length
    if final_idx < rr.1.length then
      let nk := keyAt rr.1 final_idx
      let lk := keyAt rr.1 (final_idx - 1)
      let rf := get_flight_time p o rr.2 lk nk
      (updateFlight rr.1 final_idx rf.1, rf.2)
    else (rr.1, rr.2)

/-- The `error_type == "inserted"` branch of `add_realistic_corrections`. -/
def insertedBranch (p : Profile) (o : Oracle) (sequence ns : List Event)
    (t ep : ℕ) (correct_key error_cluster : String) : List Event × ℕ :=
  let rk := get_typical_error_for_key p o t correct_key error_cluster
  let typo_key := rk.1
  let r1 := get_dwell_time p o rk.2 typo_key
  let r2 := get_flight_time p o r1.2 (keyAt ns (ep - 1)) typo_key
  let r3 := get_dwell_time p o r2.2 "backspace"
  let r4 := get_flight_time p o r3.2 typo_key "backspace"
  let typo_data : Event := ⟨typo_key, r1.1, r2.1, 0⟩
  let bs_data : Event := ⟨"backspace", r3.1, r4.1, 1⟩
  let ri := should_make_immediate_correction p o r4.2
  if ri.1 then
    let ns1 := pyInsert ns ep typo_data
    let ns2 := pyInsert ns1 (ep + 1) bs_data
    let rf := get_flight_time p o ri.2 "backspace" correct_key
    (updateFlight ns2 (ep + 2) rf.1, rf.2)
  else
    let rdel := pyRandint o ri.2 1 3
    let insert_pos_error := ep
    let ns1 := pyInsert ns insert_pos_error typo_data
    let idxs := delayedIdxs sequence.length ep rdel.1
    let effective_delay := idxs.length
    let correction_start := insert_pos_error + 1 + effective_delay
    let num_backspaces := effective_delay + 1
    let key_before := keyAt ns1 (correction_start - 1)
    let rb := insertBackspaces p o key_before correction_start num_backspaces 0 rdel.2 ns1
    let retype_start := correction_start + num_backspaces
    let rcf := get_flight_time p o rb.2 "backspace" correct_key
    let rcd := get_dwell_time p o rcf.2 correct_key
    let ns2 := pyInsert rb.1 retype_start ⟨correct_key, rcd.1, rcf.1, 0⟩
    let keys := idxs.map (fun i => keyAt sequence i)
    let rr := retypeKeys p o keys (retype_start + 1) correct_key rcd.2 ns2
    let final_idx := retype_start + 1 + keys.length
    if final_idx < rr.1.length then
      let nk := keyAt rr.1 final_idx
      let lk := keyAt rr.1 (final_idx - 1)
      let rf := get_flight_time p o rr.2 lk nk
      (updateFlight rr.1 final_idx rf.1, rf.2)
    else (rr.1, rr.2)

/-- The `error_type == "missed"` branch of `add_realistic_corrections`. -/
def missedBranch (p : Profile) (o : Oracle) (sequence ns : List Event)
    (t ep : ℕ) (correct_key : String) : List Event × ℕ :=
  if ep + 1 < ns.length then
    let missed_key := correct_key
    let next_key := keyAt ns (ep + 1)
    let r0 := get_flight_time p o t (keyAt ns (ep - 1)) next_key
    let ns0 := updateFlight ns (ep + 1) r0.1
    let ri := should_make_immediate_correction p o r0.2
    if ri.1 then
      let r1 := get_dwell_time p o ri.2 "backspace"
      let r2 := get_flight_time p o r1.2 next_key "backspace"
      let r3 := get_dwell_time p o r2.2 missed_key
      let r4 := get_flight_time p o r3.2 "backspace" missed_key
      let r5 := get_dwell_time p o r4.2 next_key
      let r6 := get_flight_time p o r5.2 missed_key next_key
      let ns1 := pyInsert ns0 (ep + 2) ⟨"backspace", r1.1, r2.1, 1⟩
      let ns2 := pyInsert ns1 (ep + 3) ⟨missed_key, r3.1, r4.1, 0⟩
      let ns3 := pyInsert ns2 (ep + 4) ⟨next_key, r5.1, r6.1, 0⟩
      if ep + 5 < ns3.length then
        let nnk := keyAt ns3 (ep + 5)
        let rf := get_flight_time p o r6.2 next_key nnk
        (updateFlight ns3 (ep + 5) rf.1, rf.2)
      else (ns3, r6.2)
    else
      let rdel := pyRandint o ri.2 1 3
      let idxs := delayedIdxs sequence.length (ep + 1) rdel.1
      let effective_delay := idxs.length
      let rfix :=
        if 0 < ep ∧ ep + 1 < ns0.length then
          let rf := get_flight_time p o rdel.2 (keyAt ns0 (ep - 1)) (keyAt ns0 (ep + 1))
          (updateFlight ns0 (ep + 1) rf.1, rf.2)
        else (ns0, rdel.2)
      let ns1 := rfix.1.eraseIdx ep
      let correction_start := ep + effective_delay
      let num_backspaces := effective_delay
      if num_backspaces = 0 then (ns1, rfix.2)
      else
        let key_before := keyAt ns1 (correction_start - 1)
        let rb := insertBackspaces p o key_before correction_start num_backspaces 0 rfix.2 ns1
        let retype_start := correction_start + num_backspaces
        let mk := keyAt sequence ep
        let rmd := get_dwell_time p o rb.2 mk
        let rmf := get_flight_time p o rmd.2 "backspace" mk
        let ns2 := pyInsert rb.1 retype_start ⟨mk, rmd.1, rmf.1, 0⟩
        let keys := idxs.map (fun i => keyAt sequence i)
        let rr := retypeKeys p o keys (retype_start + 1) mk rmf.2 ns2
        let final_idx := retype_start + 1 + keys.length
        if final_idx < rr.1.length then
          let nk := keyAt rr.1 final_idx
          let lk := keyAt rr.1 (final_idx - 1)
          let rf := get_flight_time p o rr.2 lk nk
          (updateFlight rr.1 final_idx rf.1, rf.2)
        else (rr.1, rr.2)
  else (ns, t)

/-- The `error_type == "reversed"` branch of `add_realistic_corrections`. -/
def reversedBranch (p : Profile) (o : Oracle) (sequence ns : List Event)
    (t ep : ℕ) (correct_key : String) : List Event × ℕ :=
  if ep + 1 < ns.length then
    let curr_key := correct_key
    let next_key := keyAt ns (ep + 1)
    let r1 := get_dwell_time p o t next_key
    let r2 := get_flight_time p o r1.2 (keyAt ns (ep - 1)) next_key
    let r3 := get_dwell_time p o r2.2 curr_key
    let r4 := get_flight_time p o r3.2 next_key curr_key
    let r5 := get_dwell_time p o r4.2 "backspace"
    let r6 := get_flight_time p o r5.2 curr_key "backspace"
    let r7 := get_dwell_time p o r6.2 "backspace"
    let r8 := get_flight_time p o r7.2 "backspace" "backspace"
    let r9 := get_dwell_time p o r8.2 curr_key
    let r10 := get_flight_time p o r9.2 "backspace" curr_key
    let r11 := get_dwell_time p o r10.2 next_key
    let r12 := get_flight_time p o r11.2 curr_key next_key
    let ri := should_make_immediate_correction p o r12.2
    if ri.1 then
      let ns1 := ns.set ep ⟨next_key, r1.1, r2.1, 0⟩
      let ns2 := pyInsert ns1 (ep + 1) ⟨curr_key, r3.1, r4.1, 0⟩
      let ns3 := pyInsert ns2 (ep + 2) ⟨"backspace", r5.1, r6.1, 1⟩
      let ns4 := pyInsert ns3 (ep + 3) ⟨"backspace", r7.1, r8.1, 1⟩
      let ns5 := pyInsert ns4 (ep + 4) ⟨curr_key, r9.1, r10.1, 0⟩
      let ns6 := pyInsert ns5 (ep + 5) ⟨next_key, r11.1, r12.1, 0⟩
      if ep + 6 < ns6.length then
        let nnk := keyAt ns6 (ep + 6)
        let rf := get_flight_time p o ri.2 next_key nnk
        (updateFlight ns6 (ep + 6) rf.1, rf.2)
      else (ns6, ri.2)
    else
      let rdel := pyRandint o ri.2 1 2
      if ep + 1 < sequence.length then
        let ck := keyAt sequence ep
        let nk := keyAt sequence (ep + 1)
        let key_before_swap := keyAt ns (ep - 1)
        let w1 := get_dwell_time p o rdel.2 nk
        let w2 := get_flight_time p o w1.2 key_before_swap nk
        let w3 := get_dwell_time p o w2.2 ck
        let w4 := get_flight_time p o w3.2 nk ck
        let ns1 := ns.set ep ⟨nk, w1.1, w2.1, 0⟩
        let ns2 := ns1.set (ep + 1) ⟨ck, w3.1, w4.1, 0⟩
        let rfix :=
          if ep + 2 < ns2.length then
            let rf := get_flight_time p o w4.2 ck (keyAt ns2 (ep + 2))
            (updateFlight ns2 (ep + 2) rf.1, rf.2)
          else (ns2, w4.2)
        let idxs := delayedIdxs sequence.length (ep + 2) rdel.1
        let effective_delay := idxs.length
        let correction_start := ep + 2 + effective_delay
        let num_backspaces := effective_delay + 2
        let key_before := keyAt rfix.1 (correction_start - 1)
        let rb := insertBackspaces p o key_before correction_start num_backspaces 0 rfix.2 rfix.1
        let retype_start := correction_start + num_backspaces
        let c1 := get_dwell_time p o rb.2 ck
        let c2 := get_flight_time p o c1.2 "backspace" ck
        let c3 := get_dwell_time p o c2.2 nk
        let c4 := get_flight_time p o c3.2 ck nk
        let ns3 := pyInsert rb.1 retype_start ⟨ck, c1.1, c2.1, 0⟩
        let ns4 := pyInsert ns3 (retype_start + 1) ⟨nk, c3.1, c4.1, 0⟩
        let keys := idxs.map (fun i => keyAt sequence i)
        let rr := retypeKeys p o keys (retype_start + 2) nk c4.2 ns4
        let final_idx := retype_start + 2 + keys.length
        if final_idx < rr.1.length then
          let nk2 := keyAt rr.1 final_idx
          let lk := keyAt rr.1 (final_idx - 1)
          let rf := get_flight_time p o rr.2 lk nk2
          (updateFlight rr.1 final_idx rf.1, rf.2)
        else (rr.1, rr.2)
      else (ns, rdel.2)
  else (ns, t)

/-- The typo-type population passed to `random.choices` inside
`add_realistic_corrections`. -/
def typo_type_names : List String := ["double_letter", "inserted", "missed", "reversed"]

/-- One iteration of the `for error_pos in error_positions` loop of
`add_realistic_corrections`: chooses an error shape and cluster, then
dispatches to the matching branch.  `sequence` is the original (uncopied)
sequence the source keeps reading re-type keys from. -/
def applyError (p : Profile) (o : Oracle) (sequence : List Event) (tt : TypoDist)
    (state : List Event × ℕ) (ep : ℕ) : List Event × ℕ :=
  let ns := state.1
  let t := state.2
  if ep < 3 then (ns, t)
  else
    let error_type := pyChoicesStr o t typo_type_names
      [tt.double_letter, tt.inserted, tt.missed, tt.reversed]
    let rc := choose_typo_cluster p o (t + 1)
    let error_cluster := rc.1
    let correct_key := keyAt ns ep
    if error_type = "double_letter" then
      doubleBranch p o sequence ns rc.2 ep correct_key
    else if error_type = "inserted" then
      insertedBranch p o sequence ns rc.2 ep correct_key error_cluster
    else if error_type = "missed" then
      missedBranch p o sequence ns rc.2 ep correct_key
    else if error_type = "reversed" then
      reversedBranch p o sequence ns rc.2 ep correct_key
    else (ns, rc.2)

/-- `TypingSequenceGenerator.add_realistic_corrections`. -/
def add_realistic_corrections (p : Profile) (o : Oracle) (text : List Char)
    (sequence : List Event) (t : ℕ) : List Event × ℕ :=
  if text.length < 10 ∨ sequence.length < 10 then (sequence, t)
  else
    let typo_rate := get_typo_probability p
    let tt := get_typo_type_distribution p
    let n_typos := max 1 (pyInt ((text.length : ℚ) * typo_rate)).toNat
    let potential_positions := List.range' 3 (sequence.length - 6)
    let rs := pyShuffle o t potential_positions
    let error_positions := sortNat (rs.1.take n_typos)
    error_positions.foldl (applyError p o sequence tt) (sequence, rs.2)

/-- `TypingSequenceGenerator.generate_sequence` (the unused `add_pauses`
flag of the source is dead code and omitted). -/
def generate_sequence (p : Profile) (o : Oracle) (text : String)
    (add_corrections : Bool) : List Event × ℕ :=
  let base := genBase p o text.data none 0
  match add_corrections with
  | true => add_realistic_corrections p o text.data base.1 base.2
  | false => base

/-- `TypingSequenceGenerator.load_profile`, restricted to its
profile-completeness check (`not profile.get("mean_dwell_times") or not
profile.get("mean_flight_times")` raises `ValueError`); the
file-existence check is outside the data model. -/
def load_profile (p : Profile) : Except String Profile :=
  if p.mean_dwell_times = [] ∨ p.mean_flight_times = [] then
    Except.error "incomplete profile"
  else Except.ok p

/-- The constructor-level flow: `__init__` runs `load_profile` before any
sequence can be generated, so generation happens only on a profile that
passed the completeness check. -/
def generateChecked (p : Profile) (o : Oracle) (text : String)
    (add_corrections : Bool) : Except String (List Event) :=
  (load_profile p).map (fun q => (generate_sequence q o text add_corrections).1)

/-- Modelled from the spec: one step of the Replay Interpreter (§4.6) on
the keys this generator can emit — the repository's replay tool is not
under `src/`.  `backspace` pops the last character of the buffer,
`space`/`enter`/`tab` append their literals, any other single-character
key appends itself (the generator never emits `shift`, so the spec's
shift arming never fires). -/
def replayStep (buf : List Char) (k : String) : List Char :=
  if k = "backspace" then buf.dropLast
  else if k = "space" then buf ++ [' ']
  else if k = "enter" then buf ++ ['\n']
  else if k = "tab" then buf ++ ['\t']
  else
    match k.data with
    | [c] => buf ++ [c]
    | _ => buf

/-- Modelled from the spec: the logical text reconstructed by replaying
an event sequence (§4.6). -/
def replay (s : List Event) : String :=
  ⟨(s.map (fun e => e.key)).foldl replayStep []⟩

/-- A profile that passes `load_profile`'s completeness check. -/
def ProfileComplete (p : Profile) : Prop :=
  p.mean_dwell_times ≠ [] ∧ p.mean_flight_times ≠ []

theorem getD_mem_or {α : Type} (l : List α) (i : ℕ) (d : α) :
    l.getD i d ∈ l ∨ l.getD i d = d := by
  rcases Nat.lt_or_ge i l.length with h | h
  · left
    rw [List.getD_eq_getElem l d h]
    exact List.getElem_mem h
  · right
    rw [List.getD_eq_default l d h]

theorem mem_pyInsert {α : Type} {l : List α} {i : ℕ} {x a : α}
    (h : a ∈ pyInsert l i x) : a = x ∨ a ∈ l := by
  unfold pyInsert at h
  rcases List.mem_append.mp h with h1 | h1
  · exact Or.inr (List.take_subset i l h1)
  · rcases List.mem_cons.mp h1 with h2 | h2
    · exact Or.inl h2
    · exact Or.inr (List.drop_subset i l h2)

theorem mem_shuffleGo (o : Oracle) :
    ∀ (fuel t : ℕ) (l : List ℕ), ∀ e ∈ (shuffleGo o fuel t l).1, e ∈ l := by
  intro fuel
  induction fuel with
  | zero => intro t l e he; simp [shuffleGo] at he
  | succ n ih =>
    intro t l e he
    match l with
    | [] => simp [shuffleGo] at he
    | x :: xs =>
      simp only [shuffleGo] at he
      rcases List.mem_cons.mp he with h1 | h1
      · rcases getD_mem_or (x :: xs) (o.nat t % (x :: xs).length) x with h2 | h2
        · exact h1 ▸ h2
        · rw [h1, h2]; exact List.mem_cons_self x xs
      · have := ih (t + 1) ((x :: xs).eraseIdx (o.nat t % (x :: xs).length)) e h1
        exact (List.eraseIdx_sublist _ _).subset this

theorem mem_insertSorted {x e : ℕ} : ∀ {l : List ℕ}, e ∈ insertSorted x l → e = x ∨ e ∈ l := by
  intro l
  induction l with
  | nil => intro h; simp [insertSorted] at h; exact Or.inl h
  | cons y ys ih =>
    intro h
    simp only [insertSorted] at h
    split_ifs at h with hle
    · rcases List.mem_cons.mp h with h1 | h1
      · exact Or.inl h1
      · exact Or.inr h1
    · rcases List.mem_cons.mp h with h1 | h1
      · exact Or.inr (h1 ▸ List.mem_cons_self y ys)
      · rcases ih h1 with h2 | h2
        · exact Or.inl h2
        · exact Or.inr (List.mem_cons_of_mem y h2)

theorem mem_sortNat {e : ℕ} : ∀ {l : List ℕ}, e ∈ sortNat l → e ∈ l := by
  intro l
  induction l with
  | nil => intro h; simp [sortNat] at h
  | cons x xs ih =>
    intro h
    simp only [sortNat] at h
    rcases mem_insertSorted h with h1 | h1
    · exact h1 ▸ List.mem_cons_self x xs
    · exact List.mem_cons_of_mem x (ih h1)

theorem dwell_ge (p : Profile) (o : Oracle) (t : ℕ) (k : String)
    (hp : p.mean_dwell_times ≠ []) : 10 ≤ (get_dwell_time p o t k).1 := by
  unfold get_dwell_time
  dsimp only
  cases h : lookupQ p.mean_dwell_times k with
  | some m => exact le_max_left _ _
  | none =>
    have hne : p.mean_dwell_times.map (fun kv => kv.2) ≠ [] := by
      simpa using hp
    simp only [if_pos hne]
    exact le_max_left _ _

theorem flight_ge (p : Profile) (o : Oracle) (t : ℕ) (k1 k2 : String)
    (hp : p.mean_flight_times ≠ []) : 5 ≤ (get_flight_time p o t k1 k2).1 := by
  unfold get_flight_time
  dsimp only
  cases h : lookupQ p.mean_flight_times (k1 ++ "→" ++ k2) with
  | some m => exact le_max_left _ _
  | none =>
    have hne : p.mean_flight_times.map (fun kv => kv.2) ≠ [] := by
      simpa using hp
    simp only [if_pos hne]
    exact le_max_left _ _

/-- Bounds every error/correction event satisfies: dwell clamped at 10,
flight clamped at 5. -/
def GoodT (e : Event) : Prop := 10 ≤ e.dwell ∧ 5 ≤ e.flight

/-- The shape the event list keeps through error injection: a first event
with zero flight and clamped dwell, followed by events with clamped dwell
and flight. -/
def SeqShape (l : List Event) : Prop :=
  ∃ h t, l = h :: t ∧ 10 ≤ h.dwell ∧ h.flight = 0 ∧ ∀ e ∈ t, GoodT e

theorem seqShape_dwell_all {l : List Event} (h : SeqShape l) :
    ∀ e ∈ l, 10 ≤ e.dwell := by
  obtain ⟨hd, tl, rfl, h1, _, h3⟩ := h
  intro e he
  rcases List.mem_cons.mp he with h4 | h4
  · exact h4 ▸ h1
  · exact (h3 e h4).1

theorem seqShape_pyInsert {l : List Event} {i : ℕ} {x : Event}
    (h : SeqShape l) (hi : 1 ≤ i) (hx : GoodT x) : SeqShape (pyInsert l i x) := by
  obtain ⟨hd, tl, rfl, h1, h2, h3⟩ := h
  obtain ⟨j, rfl⟩ : ∃ j, i = j + 1 := ⟨i - 1, by omega⟩
  refine ⟨hd, tl.take j ++ x :: tl.drop j, ?_, h1, h2, ?_⟩
  · unfold pyInsert
    rw [List.take_succ_cons, List.drop_succ_cons]
    rfl
  · intro e he
    rcases List.mem_append.mp he with h4 | h4
    · exact h3 e (List.take_subset j tl h4)
    · rcases List.mem_cons.mp h4 with h5 | h5
      · exact h5 ▸ hx
      · exact h3 e (List.drop_subset j tl h5)

theorem seqShape_set {l : List Event} {i : ℕ} {x : Event}
    (h : SeqShape l) (hi : 1 ≤ i) (hx : GoodT x) : SeqShape (l.set i x) := by
  obtain ⟨hd, tl, rfl, h1, h2, h3⟩ := h
  obtain ⟨j, rfl⟩ : ∃ j, i = j + 1 := ⟨i - 1, by omega⟩
  refine ⟨hd, tl.set j x, rfl, h1, h2, ?_⟩
  intro e he
  rcases List.mem_or_eq_of_mem_set he with h4 | h4
  · exact h3 e h4
  · exact h4 ▸ hx

theorem seqShape_eraseIdx {l : List Event} {i : ℕ}
    (h : SeqShape l) (hi : 1 ≤ i) : SeqShape (l.eraseIdx i) := by
  obtain ⟨hd, tl, rfl, h1, h2, h3⟩ := h
  obtain ⟨j, rfl⟩ : ∃ j, i = j + 1 := ⟨i - 1, by omega⟩
  refine ⟨hd, tl.eraseIdx j, rfl, h1, h2, ?_⟩
  intro e he
  exact h3 e ((List.eraseIdx_sublist tl j).subset he)

theorem seqShape_updateFlight {l : List Event} {i : ℕ} {f : ℚ}
    (h : SeqShape l) (hi : 1 ≤ i) (hf : 5 ≤ f) : SeqShape (updateFlight l i f) := by
  unfold updateFlight
  cases heq : l[i]? with
  | none => exact h
  | some e =>
    obtain ⟨hlt, rfl⟩ := List.getElem?_eq_some.mp heq
    have hmem : l[i] ∈ l := List.getElem_mem hlt
    have hd10 : 10 ≤ (l[i]).dwell := seqShape_dwell_all h (l[i]) hmem
    exact seqShape_set h hi ⟨hd10, hf⟩

theorem seqShape_pyInsert_ev {l : List Event} {i : ℕ}
    (h : SeqShape l) (hi : 1 ≤ i) (k : String) (d f : ℚ) (ic : ℕ)
    (hd : 10 ≤ d) (hf : 5 ≤ f) : SeqShape (pyInsert l i (⟨k, d, f, ic⟩ : Event)) :=
  seqShape_pyInsert h hi ⟨hd, hf⟩

theorem seqShape_set_ev {l : List Event} {i : ℕ}
    (h : SeqShape l) (hi : 1 ≤ i) (k : String) (d f : ℚ) (ic : ℕ)
    (hd : 10 ≤ d) (hf : 5 ≤ f) : SeqShape (l.set i (⟨k, d, f, ic⟩ : Event)) :=
  seqShape_set h hi ⟨hd, hf⟩

theorem seqShape_insertBackspaces (p : Profile) (o : Oracle) (kb : String) (pos : ℕ)
    (hp : ProfileComplete p) (hpos : 1 ≤ pos) :
    ∀ (count i t : ℕ) (ns : List Event), SeqShape ns →
      SeqShape (insertBackspaces p o kb pos count i t ns).1 := by
  intro count
  induction count with
  | zero => intro i t ns h; exact h
  | succ n ih =>
    intro i t ns h
    simp only [insertBackspaces]
    exact ih _ _ _ (seqShape_pyInsert h (by omega)
      ⟨dwell_ge p o _ _ hp.1, flight_ge p o _ _ _ hp.2⟩)

theorem seqShape_retypeKeys (p : Profile) (o : Oracle)
    (hp : ProfileComplete p) :
    ∀ (keys : List String) (pos : ℕ) (lk : String) (t : ℕ) (ns : List Event),
      SeqShape ns → 1 ≤ pos → SeqShape (retypeKeys p o keys pos lk t ns).1 := by
  intro keys
  induction keys with
  | nil => intro pos lk t ns h _; exact h
  | cons k ks ih =>
    intro pos lk t ns h hpos
    simp only [retypeKeys]
    exact ih _ _ _ _ (seqShape_pyInsert h hpos
      ⟨dwell_ge p o _ _ hp.1, flight_ge p o _ _ _ hp.2⟩) (by omega)

set_option maxHeartbeats 2000000 in
theorem seqShape_doubleBranch (p : Profile) (o : Oracle) (sequence ns : List Event)
    (t ep : ℕ) (ck : String) (hp : ProfileComplete p) (hns : SeqShape ns)
    (hep : 3 ≤ ep) : SeqShape (doubleBranch p o sequence ns t ep ck).1 := by
  unfold doubleBranch
  dsimp only
  split_ifs
  all_goals
    repeat
      first
      | exact hns
      | refine seqShape_updateFlight ?_ (by omega) (flight_ge p o _ _ _ hp.2)
      | refine seqShape_retypeKeys p o hp _ _ _ _ _ ?_ (by omega)
      | refine seqShape_insertBackspaces p o _ _ hp (by omega) _ _ _ _ ?_
      | refine seqShape_pyInsert_ev ?_ (by omega) _ _ _ _ (dwell_ge p o _ _ hp.1)
          (flight_ge p o _ _ _ hp.2)
      | refine seqShape_set_ev ?_ (by omega) _ _ _ _ (dwell_ge p o _ _ hp.1)
          (flight_ge p o _ _ _ hp.2)
      | refine seqShape_eraseIdx ?_ (by omega)

set_option maxHeartbeats 2000000 in
theorem seqShape_insertedBranch (p : Profile) (o : Oracle) (sequence ns : List Event)
    (t ep : ℕ) (ck ec : String) (hp : ProfileComplete p) (hns : SeqShape ns)
    (hep : 3 ≤ ep) : SeqShape (insertedBranch p o sequence ns t ep ck ec).1 := by
  unfold insertedBranch
  dsimp only
  split_ifs
  all_goals
    repeat
      first
      | exact hns
      | refine seqShape_updateFlight ?_ (by omega) (flight_ge p o _ _ _ hp.2)
      | refine seqShape_retypeKeys p o hp _ _ _ _ _ ?_ (by omega)
      | refine seqShape_insertBackspaces p o _ _ hp (by omega) _ _ _ _ ?_
      | refine seqShape_pyInsert_ev ?_ (by omega) _ _ _ _ (dwell_ge p o _ _ hp.1)
          (flight_ge p o _ _ _ hp.2)
      | refine seqShape_set_ev ?_ (by omega) _ _ _ _ (dwell_ge p o _ _ hp.1)
          (flight_ge p o _ _ _ hp.2)
      | refine seqShape_eraseIdx ?_ (by omega)

set_option maxHeartbeats 4000000 in
theorem seqShape_missedBranch (p : Profile) (o : Oracle) (sequence ns : List Event)
    (t ep : ℕ) (ck : String) (hp : ProfileComplete p) (hns : SeqShape ns)
    (hep : 3 ≤ ep) : SeqShape (missedBranch p o sequence ns t ep ck).1 := by
  unfold missedBranch
  dsimp only
  split_ifs
  all_goals
    repeat
      first
      | exact hns
      | refine seqShape_updateFlight ?_ (by omega) (flight_ge p o _ _ _ hp.2)
      | refine seqShape_retypeKeys p o hp _ _ _ _ _ ?_ (by omega)
      | refine seqShape_insertBackspaces p o _ _ hp (by omega) _ _ _ _ ?_
      | refine seqShape_pyInsert_ev ?_ (by omega) _ _ _ _ (dwell_ge p o _ _ hp.1)
          (flight_ge p o _ _ _ hp.2)
      | refine seqShape_set_ev ?_ (by omega) _ _ _ _ (dwell_ge p o _ _ hp.1)
          (flight_ge p o _ _ _ hp.2)
      | refine seqShape_eraseIdx ?_ (by omega)

set_option maxHeartbeats 4000000 in
theorem seqShape_reversedBranch (p : Profile) (o : Oracle) (sequence ns : List Event)
    (t ep : ℕ) (ck : String) (hp : ProfileComplete p) (hns : SeqShape ns)
    (hep : 3 ≤ ep) : SeqShape (reversedBranch p o sequence ns t ep ck).1 := by
  unfold reversedBranch
  dsimp only
  split_ifs
  all_goals
    repeat
      first
      | exact hns
      | refine seqShape_updateFlight ?_ (by omega) (flight_ge p o _ _ _ hp.2)
      | refine seqShape_retypeKeys p o hp _ _ _ _ _ ?_ (by omega)
      | refine seqShape_insertBackspaces p o _ _ hp (by omega) _ _ _ _ ?_
      | refine seqShape_pyInsert_ev ?_ (by omega) _ _ _ _ (dwell_ge p o _ _ hp.1)
          (flight_ge p o _ _ _ hp.2)
      | refine seqShape_set_ev ?_ (by omega) _ _ _ _ (dwell_ge p o _ _ hp.1)
          (flight_ge p o _ _ _ hp.2)
      | refine seqShape_eraseIdx ?_ (by omega)

theorem seqShape_applyError (p : Profile) (o : Oracle) (sequence : List Event)
    (tt : TypoDist) (hp : ProfileComplete p) :
    ∀ (st : List Event × ℕ) (ep : ℕ), SeqShape st.1 →
      SeqShape (applyError p o sequence tt st ep).1 := by
  intro st ep h
  unfold applyError
  dsimp only
  split_ifs with h1 h2 h3 h4 h5
  · exact h
  · exact seqShape_doubleBranch p o sequence st.1 _ ep _ hp h (by omega)
  · exact seqShape_insertedBranch p o sequence st.1 _ ep _ _ hp h (by omega)
  · exact seqShape_missedBranch p o sequence st.1 _ ep _ hp h (by omega)
  · exact seqShape_reversedBranch p o sequence st.1 _ ep _ hp h (by omega)
  · exact h

theorem seqShape_foldl (p : Profile) (o : Oracle) (sequence : List Event)
    (tt : TypoDist) (hp : ProfileComplete p) :
    ∀ (eps : List ℕ) (st : List Event × ℕ), SeqShape st.1 →
      SeqShape (eps.foldl (applyError p o sequence tt) st).1 := by
  intro eps
  induction eps with
  | nil => intro st h; exact h
  | cons e es ih =>
    intro st h
    exact ih _ (seqShape_applyError p o sequence tt hp st e h)

theorem singleton_ne_of_len (c : Char) (s : String) (hs : s.data.length ≠ 1) :
    String.singleton c ≠ s := by
  intro h
  apply hs
  rw [← h]
  rfl

theorem keyFor_ne_empty (p : Profile) (c : Char) : keyFor p c ≠ "" := by
  unfold keyFor
  split_ifs
  · decide
  · decide
  · decide
  · decide
  · exact singleton_ne_of_len c "" (by decide)

theorem keyFor_ne_shift (p : Profile) (c : Char) : keyFor p c ≠ "shift" := by
  unfold keyFor
  split_ifs
  · decide
  · decide
  · decide
  · decide
  · exact singleton_ne_of_len c "shift" (by decide)

theorem genBase_goodT (p : Profile) (o : Oracle) (hp : ProfileComplete p) :
    ∀ (cs : List Char) (pk : String) (t : ℕ),
      ∀ e ∈ (genBase p o cs (some pk) t).1, GoodT e := by
  intro cs
  induction cs with
  | nil => intro pk t e he; simp [genBase] at he
  | cons c cs ih =>
    intro pk t e he
    simp only [genBase] at he
    split_ifs at he with h1 h2
    · exact ih pk t e he
    · exact ih pk _ e he
    · rcases List.mem_cons.mp he with h3 | h3
      · exact h3 ▸ ⟨dwell_ge p o _ _ hp.1, flight_ge p o _ _ _ hp.2⟩
      · exact ih (keyFor p c) _ e h3

theorem genBase_shape (p : Profile) (o : Oracle) (hp : ProfileComplete p) :
    ∀ (cs : List Char) (t : ℕ),
      (genBase p o cs none t).1 = [] ∨ SeqShape (genBase p o cs none t).1 := by
  intro cs
  induction cs with
  | nil => intro t; left; rfl
  | cons c cs ih =>
    intro t
    simp only [genBase]
    split_ifs with h1 h2
    · exact ih t
    · exact ih _
    · right
      refine ⟨_, _, rfl, dwell_ge p o _ _ hp.1, rfl, ?_⟩
      intro e he
      exact genBase_goodT p o hp cs (keyFor p c) _ e he

theorem genBase_keys (p : Profile) (o : Oracle) :
    ∀ (cs : List Char) (prev : Option String) (t : ℕ),
      ((genBase p o cs prev t).1).map (fun e => e.key)
        = (cs.filter (fun c => c ≠ '\r')).map (keyFor p) := by
  intro cs
  induction cs with
  | nil => intro prev t; rfl
  | cons c cs ih =>
    intro prev t
    by_cases h1 : c = '\r'
    · subst h1
      rw [List.filter_cons_of_neg (by decide)]
      simp only [genBase, if_pos rfl]
      exact ih prev t
    · rw [List.filter_cons_of_pos (by simpa using h1)]
      simp only [genBase, if_neg h1, if_neg (keyFor_ne_empty p c), List.map_cons]
      rw [ih]

theorem replayStep_keyFor (p : Profile) (c : Char) (buf : List Char) :
    replayStep buf (keyFor p c) = buf ++ [c] := by
  unfold keyFor
  split_ifs with h1 h2 h3 h4
  · subst h1; rfl
  · subst h2; rfl
  · subst h3; rfl
  · subst h3; rfl
  · have hb : String.singleton c ≠ "backspace" := singleton_ne_of_len c _ (by decide)
    have hs : String.singleton c ≠ "space" := singleton_ne_of_len c _ (by decide)
    have he : String.singleton c ≠ "enter" := singleton_ne_of_len c _ (by decide)
    have ht : String.singleton c ≠ "tab" := singleton_ne_of_len c _ (by decide)
    simp only [replayStep, if_neg hb, if_neg hs, if_neg he, if_neg ht]
    rfl

theorem foldl_replayStep_keyFor (p : Profile) :
    ∀ (cs buf : List Char),
      ((cs.filter (fun c => c ≠ '\r')).map (keyFor p)).foldl replayStep buf
        = buf ++ cs.filter (fun c => c ≠ '\r') := by
  intro cs
  induction cs with
  | nil => intro buf; simp
  | cons c cs ih =>
    intro buf
    by_cases h1 : c = '\r'
    · subst h1
      rw [List.filter_cons_of_neg (by decide)]
      exact ih buf
    · rw [List.filter_cons_of_pos (by simpa using h1)]
      simp only [List.map_cons, List.foldl_cons]
      rw [replayStep_keyFor, ih]
      simp

theorem corrections_short (p : Profile) (o : Oracle) (text : List Char)
    (s : List Event) (t : ℕ) (h : text.length < 10 ∨ s.length < 10) :
    add_realistic_corrections p o text s t = (s, t) := by
  unfold add_realistic_corrections
  rw [if_pos h]

theorem generate_short (p : Profile) (o : Oracle) (text : String)
    (h : text.data.length < 10 ∨ (genBase p o text.data none 0).1.length < 10) :
    generate_sequence p o text true = generate_sequence p o text false := by
  unfold generate_sequence
  dsimp only
  rw [corrections_short p o _ _ _ h]

theorem keyFor_eq_singleton (p : Profile) (c : Char) (h1 : c ≠ '\t') (h2 : c ≠ '\n')
    (h3 : c ≠ ' ') : keyFor p c = String.singleton c := by
  unfold keyFor
  rw [if_neg h1, if_neg h2, if_neg h3]

theorem pyChoiceChar_mem (o : Oracle) (t : ℕ) (l : List Char) (hl : l ≠ []) :
    ∃ c ∈ l, pyChoiceChar o t l = String.singleton c := by
  match l with
  | [] => exact absurd rfl hl
  | x :: xs =>
    dsimp only [pyChoiceChar]
    rcases getD_mem_or (x :: xs) (o.nat t % (x :: xs).length) x with h | h
    · exact ⟨_, h, rfl⟩
    · exact ⟨x, List.mem_cons_self x xs, by rw [h]⟩

theorem seqShape_flight_get {l : List Event} (hs : SeqShape l) (i : ℕ)
    (hi : i < l.length) (h1 : 1 ≤ i) : 5 ≤ (l.get ⟨i, hi⟩).flight := by
  obtain ⟨hd, tl, rfl, _, _, h3⟩ := hs
  obtain ⟨j, rfl⟩ : ∃ j, i = j + 1 := ⟨i - 1, by omega⟩
  have hj : j < tl.length := by simpa using hi
  have hget : (hd :: tl).get ⟨j + 1, hi⟩ = tl.get ⟨j, hj⟩ := rfl
  rw [hget]
  exact (h3 _ (List.get_mem tl j hj)).2

theorem seqShape_flight_zero {l : List Event} (hs : SeqShape l)
    (h0 : 0 < l.length) : (l.get ⟨0, h0⟩).flight = 0 := by
  obtain ⟨hd, tl, rfl, _, h2, _⟩ := hs
  exact h2

/-! ## Concrete test fixtures

Minimal complete profiles and deterministic oracles used by the concrete
counterexample and witness theorems. -/

/-- A minimal profile passing the completeness check: one dwell entry and
one flight entry, every optional field absent. -/
def profileMin : Profile :=
  ⟨[("a", 50)], [], [("a→a", 80)], [], none, none, none, none, none, none, none, []⟩

/-- Oracle whose normal draws return the mean, uniform draws the lower
bound, `random()` zero, and every index draw zero. -/
def oracleZero : Oracle :=
  ⟨fun _ m _ => m, fun _ a _ => a, fun _ => 0, fun _ => 0⟩

/-- Oracle identical to `oracleZero` except every index draw is two
(selecting the `missed` error shape). -/
def oracleTwo : Oracle :=
  ⟨fun _ m _ => m, fun _ a _ => a, fun _ => 0, fun _ => 2⟩

/-- A profile holding dwell statistics for the lowercase letters `g` and
`a` only (no uppercase entries). -/
def profileGA : Profile :=
  ⟨[("g", 100), ("a", 50)], [("g", 5), ("a", 5)], [("a→a", 80)], [],
    none, none, none, none, none, none, none, []⟩

/-- Oracle whose normal draws return mean plus standard deviation, making
a duration depend on both distribution parameters. -/
def oracleMeanPlusStd : Oracle :=
  ⟨fun _ m s => m + s, fun _ a _ => a, fun _ => 0, fun _ => 0⟩

/-- The §8 scenario profile: error rate 1, shape weights concentrated on
`double_letter`, corrections always immediate. -/
def profileScenario : Profile :=
  ⟨[("a", 50)], [], [("a→a", 80)], [], some 1, some 1, some 0, some 0, some 0,
    none, some (1, 0), []⟩

/-- A complete profile whose four error-shape weights and four cluster
weights are all present and zero. -/
def profileZeroWeights : Profile :=
  ⟨[("a", 50)], [], [("a→a", 80)], [], none, some 0, some 0, some 0, some 0,
    some (0, 0, 0, 0), none, []⟩

/-! ## Claims -/

/-- C1 counterexample: the round-trip invariant fails as stated.  With
error injection disabled, the text `"a\rb"` replays to `"ab"` (carriage
returns are skipped, so the reconstructed text differs from the input);
with error injection enabled, a run of `"0123456789"` in which the oracle
selects a `missed`-shape error with immediate correction replays to
`"01234556789"` — the immediate `missed` correction inserts
backspace/retype events without removing the original event of the missed
key, duplicating a character. -/
theorem c1_counterexample :
    replay (generate_sequence profileMin oracleZero "a\rb" false).1 ≠ "a\rb"
    ∧ replay (generate_sequence profileMin oracleTwo "0123456789" true).1
        ≠ "0123456789" := by
  constructor
  · with_unfolding_all decide
  · with_unfolding_all decide

/-- C1 (amended): for every profile and every input text, with error
injection disabled, replaying the sequence returned by
`generate_sequence` reconstructs the input text with all carriage-return
characters removed. -/
theorem c1_roundtrip_no_injection (p : Profile) (o : Oracle) (text : String) :
    replay (generate_sequence p o text false).1
      = ⟨text.data.filter (fun c => c ≠ '\r')⟩ := by
  unfold replay generate_sequence
  dsimp only
  rw [genBase_keys, foldl_replayStep_keyFor, List.nil_append]

/-- C2 counterexample: the sequence builder does not expand the uppercase
letter `G` of `"Go"` into a shift / lowercase-`g` / shift triple; it
emits a single event carrying `"G"` itself, and no `shift` event exists
anywhere in the sequence. -/
theorem c2_counterexample :
    (generate_sequence profileMin oracleZero "Go" true).1.map (fun e => e.key)
        = ["G", "o"]
    ∧ "shift" ∉ (generate_sequence profileMin oracleZero "Go" true).1.map
        (fun e => e.key) := by
  constructor
  · with_unfolding_all decide
  · with_unfolding_all decide

/-- C2 (amended): the sequence builder passes every uppercase letter
through as exactly one event whose key is the uppercase character itself
(the key mapping sends every non-whitespace character, uppercase
included, to its own one-character string), and no event of a base
sequence ever carries the key `shift`. -/
theorem c2_uppercase_passthrough (p : Profile) (o : Oracle) (text : String) :
    (generate_sequence p o text false).1.map (fun e => e.key)
      = (text.data.filter (fun c => c ≠ '\r')).map (keyFor p)
    ∧ (∀ c : Char, c.isUpper → keyFor p c = String.singleton c)
    ∧ "shift" ∉ (generate_sequence p o text false).1.map (fun e => e.key) := by
  refine ⟨genBase_keys p o text.data none 0, ?_, ?_⟩
  · intro c hc
    refine keyFor_eq_singleton p c ?_ ?_ ?_
    · rintro rfl; exact absurd hc (by decide)
    · rintro rfl; exact absurd hc (by decide)
    · rintro rfl; exact absurd hc (by decide)
  · show "shift" ∉ (genBase p o text.data none 0).1.map (fun e => e.key)
    rw [genBase_keys p o text.data none 0]
    intro hmem
    rcases List.mem_map.mp hmem with ⟨c, _hc, hcon⟩
    exact keyFor_ne_shift p c hcon

/-- C2 witness: the amended statement instantiated at `"Go"`, with the
uppercase hypothesis discharged at `'G'`. -/
theorem c2_witness :
    'G'.isUpper = true
    ∧ keyFor profileMin 'G' = String.singleton 'G'
    ∧ "shift" ∉ (generate_sequence profileMin oracleZero "Go" false).1.map
        (fun e => e.key) :=
  ⟨by decide, (c2_uppercase_passthrough profileMin oracleZero "Go").2.1 'G' (by decide),
    (c2_uppercase_passthrough profileMin oracleZero "Go").2.2⟩

/-- C3 counterexample: with the §8 scenario profile (error rate 1, all
weight on the double-letter shape, always-immediate corrections) and
error injection enabled, the text `"hi"` produces just the two events
`h`, `i` — not the character-pair-plus-backspace pattern the claim
describes — because texts shorter than 10 characters are never
error-injected. -/
theorem c3_counterexample :
    (generate_sequence profileScenario oracleZero "hi" true).1.map (fun e => e.key)
        = ["h", "i"]
    ∧ (generate_sequence profileScenario oracleZero "hi" true).1.map (fun e => e.key)
        ≠ ["h", "h", "backspace", "i", "i", "backspace"] := by
  constructor
  · with_unfolding_all decide
  · with_unfolding_all decide

/-- C3 (amended): for every profile (the scenario profile included) and
every oracle, generating `"hi"` with error injection enabled emits each
character exactly once with no corrective backspaces — the 10-character
minimum suppresses all error injection — and the sequence replays to
`"hi"`. -/
theorem c3_short_text_identity (p : Profile) (o : Oracle) :
    (generate_sequence p o "hi" true).1.map (fun e => e.key) = ["h", "i"]
    ∧ replay (generate_sequence p o "hi" true).1 = "hi" := by
  have hshort : generate_sequence p o "hi" true = generate_sequence p o "hi" false :=
    generate_short p o "hi" (Or.inl (by decide))
  rw [hshort]
  have hkeys : (generate_sequence p o "hi" false).1.map (fun e => e.key)
      = ["h", "i"] := by
    have hk := genBase_keys p o "hi".data none 0
    refine Eq.trans hk ?_
    rw [show ("hi".data.filter (fun c => c ≠ '\r')) = ['h', 'i'] by decide]
    rw [List.map_cons, List.map_cons, List.map_nil,
      keyFor_eq_singleton p 'h' (by decide) (by decide) (by decide),
      keyFor_eq_singleton p 'i' (by decide) (by decide) (by decide)]
    decide
  refine ⟨hkeys, ?_⟩
  unfold replay
  rw [hkeys]
  decide

/-- C4 counterexample: a ten-character text with no alphabetic characters
is error-injected anyway — with injection enabled the sequence differs
from the base sequence (a double-letter error and its corrective
backspace are inserted at position 3 of `"0123456789"`). -/
theorem c4_counterexample :
    (∀ c ∈ "0123456789".data, c.isAlpha = false)
    ∧ (generate_sequence profileMin oracleZero "0123456789" true).1
        ≠ (generate_sequence profileMin oracleZero "0123456789" false).1 := by
  constructor
  · with_unfolding_all decide
  · with_unfolding_all decide

/-- C4 (amended): error injection never consults character class, so the
claim only survives on inputs the length guard already protects: for
every text with no alphabetic characters and fewer than 10 characters,
generation with error injection enabled equals generation with it
disabled.  (For longer texts errors are injected regardless of character
class, as the counterexample shows.) -/
theorem c4_short_nonalpha_no_injection (p : Profile) (o : Oracle) (text : String)
    (_hna : ∀ c ∈ text.data, c.isAlpha = false) (hlen : text.data.length < 10) :
    generate_sequence p o text true = generate_sequence p o text false :=
  generate_short p o text (Or.inl hlen)

/-- C4 witness: the amended statement at the non-alphabetic text `"123"`. -/
theorem c4_witness :
    ((∀ c ∈ "123".data, c.isAlpha = false) ∧ "123".data.length < 10)
    ∧ generate_sequence profileMin oracleZero "123" true
        = generate_sequence profileMin oracleZero "123" false :=
  ⟨⟨by decide, by decide⟩,
    c4_short_nonalpha_no_injection profileMin oracleZero "123" (by decide) (by decide)⟩

/-- C5: for every profile passing the completeness check, every oracle,
every input text and either error-injection setting, every generated
event has dwell ≥ 8 and every event after the first has flight ≥ 3,
while the first event's flight is exactly 0.  (The code's actual clamps
are 10 and 5, which satisfy the spec's floors of 8 and 3.) -/
theorem c5_duration_floors (p : Profile) (o : Oracle) (text : String) (b : Bool)
    (h1 : p.mean_dwell_times ≠ []) (h2 : p.mean_flight_times ≠ []) :
    (∀ e ∈ (generate_sequence p o text b).1, 8 ≤ e.dwell)
    ∧ (∀ (i : ℕ) (hi : i < (generate_sequence p o text b).1.length),
        1 ≤ i → 3 ≤ ((generate_sequence p o text b).1.get ⟨i, hi⟩).flight)
    ∧ ∀ h0 : 0 < (generate_sequence p o text b).1.length,
        ((generate_sequence p o text b).1.get ⟨0, h0⟩).flight = 0 := by
  have hp : ProfileComplete p := ⟨h1, h2⟩
  have hshape : (generate_sequence p o text b).1 = []
      ∨ SeqShape (generate_sequence p o text b).1 := by
    cases b with
    | false => exact genBase_shape p o hp text.data 0
    | true =>
      unfold generate_sequence
      dsimp only
      unfold add_realistic_corrections
      split_ifs with hshort
      · exact genBase_shape p o hp text.data 0
      · right
        dsimp only
        apply seqShape_foldl p o _ _ hp
        rcases genBase_shape p o hp text.data 0 with hem | hs
        · exact absurd (Or.inr (by rw [hem]; decide)) hshort
        · exact hs
  rcases hshape with hem | hs
  · have hlen : (generate_sequence p o text b).1.length = 0 := by rw [hem]; rfl
    refine ⟨?_, ?_, ?_⟩
    · intro e he
      rw [hem] at he
      simp at he
    · intro i hi h1i
      omega
    · intro h0
      omega
  · exact ⟨fun e he => le_trans (by norm_num) (seqShape_dwell_all hs e he),
      fun i hi h1i => le_trans (by norm_num) (seqShape_flight_get hs i hi h1i),
      fun h0 => seqShape_flight_zero hs h0⟩

/-- C5 witness: the duration floors at a concrete complete profile, a
concrete oracle and the text `"hello world"` with error injection on. -/
theorem c5_witness :
    (profileMin.mean_dwell_times ≠ [] ∧ profileMin.mean_flight_times ≠ [])
    ∧ ((∀ e ∈ (generate_sequence profileMin oracleZero "hello world" true).1, 8 ≤ e.dwell)
      ∧ (∀ (i : ℕ)
          (hi : i < (generate_sequence profileMin oracleZero "hello world" true).1.length),
          1 ≤ i → 3 ≤ ((generate_sequence profileMin oracleZero "hello world" true).1.get
            ⟨i, hi⟩).flight)
      ∧ ∀ h0 : 0 < (generate_sequence profileMin oracleZero "hello world" true).1.length,
          ((generate_sequence profileMin oracleZero "hello world" true).1.get
            ⟨0, h0⟩).flight = 0) :=
  ⟨⟨by decide, by decide⟩,
    c5_duration_floors profileMin oracleZero "hello world" true (by decide) (by decide)⟩

/-- C6 counterexample: with the cluster `home_row` and a profile with no
common-typo patterns, the substitute for key `"a"` is `"q"`, which is not
a member of the home-row string — `get_typical_error_for_key` has no
branch for the `home_row` cluster and falls through to the full-alphabet
default. -/
theorem c6_counterexample :
    (get_typical_error_for_key profileMin oracleZero 0 "a" "home_row").1 = "q"
    ∧ ¬ (∀ c ∈ (get_typical_error_for_key profileMin oracleZero 0 "a" "home_row").1.data,
        c ∈ home_row.data) := by
  constructor
  · with_unfolding_all decide
  · with_unfolding_all decide

/-- C6 (amended): when the chosen cluster is `home_row` and the profile
has no common-typo patterns, the substitute key is drawn from the full
alphabet string `"qwertyuiopasdfghjklzxcvbnm"` (the `home_row` cluster
matches no branch of `get_typical_error_for_key` and takes the default),
not from the home row. -/
theorem c6_fallback_alphabet (p : Profile) (o : Oracle) (t : ℕ) (key : String)
    (hpat : p.common_typo_patterns = []) :
    ∃ c ∈ alphabet.data,
      (get_typical_error_for_key p o t key "home_row").1 = String.singleton c := by
  unfold get_typical_error_for_key
  rw [hpat]
  dsimp only [patternsLoop]
  rw [if_neg (by decide : ¬("home_row" : String) = "double_letter"),
    if_neg (by decide :
      ¬(("home_row" : String) = "adjacent_keys" ∨ ("home_row" : String) = "inserted")),
    if_neg (by decide : ¬("home_row" : String) = "same_hand"),
    if_neg (by decide : ¬("home_row" : String) = "reversed")]
  exact pyChoiceChar_mem o t alphabet.data (by decide)

/-- C6 witness: the amended statement at a patternless profile and
key `"a"`. -/
theorem c6_witness :
    profileMin.common_typo_patterns = []
    ∧ ∃ c ∈ alphabet.data,
      (get_typical_error_for_key profileMin oracleZero 0 "a" "home_row").1
        = String.singleton c :=
  ⟨rfl, c6_fallback_alphabet profileMin oracleZero 0 "a" rfl⟩

/-- C7 counterexample: timing lookup is not case-insensitive.  With a
profile holding entries for `g` (mean 100, std 5) and `a` (mean 50,
std 5) and an oracle returning mean plus standard deviation, `g` samples
105 while `G` (no entry of its own) takes the average-of-all-means
fallback and samples 82.5 — different durations from the same draws. -/
theorem c7_counterexample :
    (get_dwell_time profileGA oracleMeanPlusStd 0 "G").1
      ≠ (get_dwell_time profileGA oracleMeanPlusStd 0 "g").1 := by
  with_unfolding_all decide

/-- C7 (amended): dwell-time lookup is case-sensitive exact string
matching: any two keys absent from `mean_dwell_times` — an uppercase
letter whose lowercase form is present included — receive the identical
average-of-all-means fallback, rather than the statistics of any other
entry. -/
theorem c7_case_sensitive_fallback (p : Profile) (o : Oracle) (t : ℕ)
    (k1 k2 : String) (ha : lookupQ p.mean_dwell_times k1 = none)
    (hb : lookupQ p.mean_dwell_times k2 = none) :
    get_dwell_time p o t k1 = get_dwell_time p o t k2 := by
  unfold get_dwell_time
  rw [ha, hb]

/-- C7 witness: the amended statement at the uppercase key `"G"` and the
unrelated absent key `"Z"`. -/
theorem c7_witness :
    (lookupQ profileGA.mean_dwell_times "G" = none
      ∧ lookupQ profileGA.mean_dwell_times "Z" = none)
    ∧ get_dwell_time profileGA oracleMeanPlusStd 0 "G"
        = get_dwell_time profileGA oracleMeanPlusStd 0 "Z" :=
  ⟨⟨by decide, by decide⟩,
    c7_case_sensitive_fallback profileGA oracleMeanPlusStd 0 "G" "Z"
      (by decide) (by decide)⟩

/-- C8: the checked generation pipeline fails if and only if the
profile's per-key dwell map or per-pair flight map is missing/empty (the
completeness check runs before any generation), and a profile with both
maps non-empty never fails regardless of its optional fields, oracle,
text or injection setting. -/
theorem c8_load_fails_iff_incomplete (p : Profile) (o : Oracle) (text : String)
    (b : Bool) :
    (∃ msg, generateChecked p o text b = Except.error msg)
      ↔ (p.mean_dwell_times = [] ∨ p.mean_flight_times = []) := by
  unfold generateChecked load_profile
  split_ifs with h
  · exact ⟨fun _ => h, fun _ => ⟨"incomplete profile", rfl⟩⟩
  · constructor
    · rintro ⟨msg, hmsg⟩
      exact absurd hmsg (by simp [Except.map])
    · intro h2
      exact absurd h2 h

/-- C9: with all four error-shape weights present and zero, the shape
distribution degrades to the exact uniform distribution (each probability
1/4); with all four cluster weights present and zero, the normalized
cluster weight vector is likewise `[1/4, 1/4, 1/4, 1/4]` and the chosen
cluster is always one of the four cluster names — nothing raises and no
outcome is excluded. -/
theorem c9_zero_weights_uniform (p : Profile)
    (h1 : p.double_letter_error_rate = some 0) (h2 : p.inserted_letter_rate = some 0)
    (h3 : p.missed_letter_rate = some 0) (h4 : p.reversed_letters_rate = some 0)
    (h5 : p.typo_clusters = some (0, 0, 0, 0)) :
    get_typo_type_distribution p = ⟨1/4, 1/4, 1/4, 1/4⟩
    ∧ clusterProbs p = some [1/4, 1/4, 1/4, 1/4]
    ∧ ∀ (o : Oracle) (t : ℕ), (choose_typo_cluster p o t).1 ∈ cluster_names := by
  have hd : get_typo_type_distribution p = ⟨1/4, 1/4, 1/4, 1/4⟩ := by
    unfold get_typo_type_distribution
    rw [h1, h2, h3, h4]
    dsimp only
    rw [max_eq_left (by norm_num : (0:ℚ) ≤ 1/1000)]
    norm_num
  have hc : clusterProbs p = some [1/4, 1/4, 1/4, 1/4] := by
    unfold clusterProbs
    rw [h5]
    dsimp only
    rw [max_eq_left (by norm_num : (0:ℚ) ≤ 1/1000)]
    norm_num
  refine ⟨hd, hc, ?_⟩
  intro o t
  unfold choose_typo_cluster
  rw [hc]
  dsimp only [pyChoicesStr]
  have hlt : o.nat t % cluster_names.length < cluster_names.length :=
    Nat.mod_lt _ (by decide)
  rw [List.getD_eq_getElem _ _ hlt]
  exact List.getElem_mem hlt

/-- C9 witness: the zero-weight uniform fallback at a concrete profile
whose eight category weights are all present and zero. -/
theorem c9_witness :
    (profileZeroWeights.double_letter_error_rate = some 0
      ∧ profileZeroWeights.inserted_letter_rate = some 0
      ∧ profileZeroWeights.missed_letter_rate = some 0
      ∧ profileZeroWeights.reversed_letters_rate = some 0
      ∧ profileZeroWeights.typo_clusters = some (0, 0, 0, 0))
    ∧ (get_typo_type_distribution profileZeroWeights = ⟨1/4, 1/4, 1/4, 1/4⟩
      ∧ clusterProbs profileZeroWeights = some [1/4, 1/4, 1/4, 1/4]
      ∧ ∀ (o : Oracle) (t : ℕ),
          (choose_typo_cluster profileZeroWeights o t).1 ∈ cluster_names) :=
  ⟨⟨rfl, rfl, rfl, rfl, rfl⟩,
    c9_zero_weights_uniform profileZeroWeights rfl rfl rfl rfl rfl⟩

/-- C10: for every input text shorter than 10 characters, or whose base
event sequence has fewer than 10 events, generation with error injection
enabled returns exactly the unmodified base sequence
(`add_realistic_corrections` returns its input untouched below the
threshold). -/
theorem c10_short_input_unmodified (p : Profile) (o : Oracle) (text : String)
    (h : text.data.length < 10 ∨ (generate_sequence p o text false).1.length < 10) :
    generate_sequence p o text true = generate_sequence p o text false :=
  generate_short p o text h

/-- C10 witness: the guard at the nine-character text `"ninechars"` with
a maximal error rate profile. -/
theorem c10_witness :
    ("ninechars".data.length < 10
      ∨ (generate_sequence profileScenario oracleZero "ninechars" false).1.length < 10)
    ∧ generate_sequence profileScenario oracleZero "ninechars" true
        = generate_sequence profileScenario oracleZero "ninechars" false :=
  ⟨Or.inl (by decide),
    c10_short_input_unmodified profileScenario oracleZero "ninechars" (Or.inl (by decide))⟩

end Keystroke
